import Mathlib

/-!
Verification of the Conversation Session & Notification Fanout Engine.

This file gives a shallow embedding of the engine implemented in
`src/conversationManager.ts`, `src/proactiveNotifier.ts`,
`src/agentConnector.ts`, `src/teamsBot.ts` and the HTTP trigger module
(`notification` / `securityAlert` / `health` handlers), and proves the
frozen claims about it.

Modelling conventions:
- JavaScript `Map<string, V>` becomes an association list `List (String × V)`
  whose insert replaces in place (preserving JS Map insertion-order
  semantics) and whose delete removes the key.
- Timestamps (`new Date().toISOString()`) become `Nat` milliseconds; the
  source compares ISO strings lexicographically, which is order-isomorphic
  to comparing the instants for the fixed ISO format, so `<` on `Nat` is a
  faithful translation.
- Clock times (`getHours() * 100 + getMinutes()`) become a `Nat` in the
  same `HHMM` encoding the source uses.
- Fallible external calls (AI backend, chat-platform send) are passed in as
  `Except`/oracle parameters; `async` code is sequentialised, and the
  promise list built by the fanout loop is represented by the list of
  recipients whose dispatch was started.
-/

/-- ASCII lowercasing, the model of `String.prototype.toLowerCase` (the
source texts are ASCII). Defined charwise over the string data so the
kernel can evaluate it. -/
def toLowerStr (s : String) : String := ⟨s.data.map Char.toLower⟩

/-- Whitespace trimming at both ends, the model of
`String.prototype.trim`. -/
def trimStr (s : String) : String :=
  ⟨((s.data.dropWhile Char.isWhitespace).reverse.dropWhile Char.isWhitespace).reverse⟩

/-- Emptiness test on the string data (`s === ""` falsiness). -/
def strIsEmpty (s : String) : Bool := s.data.isEmpty

/-- Split a character list at every occurrence of a separator character,
the model of `String.prototype.split` with a one-character separator. -/
def splitOnChar (c : Char) : List Char → List (List Char)
  | [] => [[]]
  | x :: xs =>
    let r := splitOnChar c xs
    if x = c then [] :: r
    else
      match r with
      | y :: ys => (x :: y) :: ys
      | [] => [[x]]

/-- Decimal value of a digit list. -/
def digitsToNat (l : List Char) : Nat := l.foldl (fun a c => a * 10 + (c.toNat - 48)) 0

/-- JS `Number(...)` on a time-component string, restricted to the
well-formed inputs the engine handles: a non-empty digit string maps to
its value, anything else (JS `NaN`) to 0. -/
def jsNumberNat (l : List Char) : Nat :=
  if !l.isEmpty && l.all (fun c => c.isDigit) then digitsToNat l else 0

/-- `Array.prototype.join(sep)`. -/
def intercalateStr (sep : String) : List String → String
  | [] => ""
  | [x] => x
  | x :: xs => x ++ sep ++ intercalateStr sep xs

/-- JavaScript substring containment (`String.prototype.includes`). -/
def strContains (s pat : String) : Bool :=
  (List.range (s.data.length + 1)).any (fun i => pat.data.isPrefixOf (s.data.drop i))

/-- JavaScript `Array.prototype.slice(-n)`: the last `n` elements (all of
them when fewer than `n` exist). -/
def sliceLast {α : Type} (l : List α) (n : Nat) : List α :=
  l.drop (l.length - n)

/-- JavaScript truthiness of an optional string: `undefined` and `""` are
falsy. -/
def jsTruthy (s : Option String) : Bool :=
  match s with
  | none => false
  | some t => !(strIsEmpty t)

/-- JavaScript `a || b` defaulting for an optional string field. -/
def jsOrElse (s : Option String) (d : String) : String :=
  match s with
  | none => d
  | some t => if strIsEmpty t then d else t

/-- Normalisation applied to an inbound message before it is recorded:
`text.toLowerCase().trim()` in `updateConversationState`. -/
def normalizeQuery (s : String) : String :=
  trimStr (toLowerStr s)

/-- The four-tier urgency/severity scale used across the engine. -/
inductive SecurityLevel where
  | low
  | medium
  | high
  | critical
deriving DecidableEq, Repr

/-- Keyword tier for `critical` in `detectSecurityLevel`. -/
def criticalKeywords : List String :=
  ["breach", "attack", "compromise", "malware", "ransomware", "critical", "urgent", "emergency"]

/-- Keyword tier for `high` in `detectSecurityLevel`. -/
def highKeywords : List String :=
  ["threat", "suspicious", "alert", "incident", "vulnerability", "exploit"]

/-- Keyword tier for `medium` in `detectSecurityLevel`. -/
def mediumKeywords : List String :=
  ["security", "audit", "compliance", "policy", "review"]

/-- `ConversationManager.detectSecurityLevel`: ordered keyword-tier
classification of a message text, checked critical → high → medium,
defaulting to low. The input is lowercased before the substring checks. -/
def detectSecurityLevel (query : String) : SecurityLevel :=
  let lowerQuery := toLowerStr query
  if criticalKeywords.any (fun k => strContains lowerQuery k) then .critical
  else if highKeywords.any (fun k => strContains lowerQuery k) then .high
  else if mediumKeywords.any (fun k => strContains lowerQuery k) then .medium
  else .low

/-- The ordered topic table of `ConversationManager.detectCurrentTopic`
(JS object literal; `Object.entries` iterates in insertion order). -/
def topicTable : List (String × List String) :=
  [("incident response", ["incident", "response", "containment", "recovery"]),
   ("threat analysis", ["threat", "analysis", "intelligence", "ioc", "indicators"]),
   ("compliance", ["compliance", "audit", "framework", "standards", "regulation"]),
   ("vulnerability management", ["vulnerability", "patch", "cve", "scanning"]),
   ("access control", ["access", "permissions", "authentication", "authorization"]),
   ("network security", ["network", "firewall", "intrusion", "traffic"]),
   ("malware analysis", ["malware", "virus", "trojan", "payload", "analysis"])]

/-- `ConversationManager.detectCurrentTopic`: first topic of the table one
of whose keywords occurs in the lowercased text; default
`"general security"`. -/
def detectCurrentTopic (query : String) : String :=
  let lowerQuery := toLowerStr query
  match topicTable.find? (fun p => p.2.any (fun kw => strContains lowerQuery kw)) with
  | some p => p.1
  | none => "general security"

/-- `ConversationManager.parseTimeString`: `"HH:MM"` to the
`hours * 100 + minutes` encoding (the source comment says minutes but the
code multiplies by 100, matching the `currentTime` encoding). -/
def parseTimeString (timeStr : String) : Nat :=
  match (splitOnChar ':' timeStr.data).map jsNumberNat with
  | h :: m :: _ => h * 100 + m
  | _ => 0

/-- Quiet-hours window of a notification preference (HH:MM strings). -/
structure QuietHours where
  start : String
  endT : String
deriving DecidableEq, Repr

/-- Escalation rules of a notification preference. -/
structure EscalationRules where
  highPriority : Bool
  criticalOnly : Bool
  immediateForKeywords : List String
deriving DecidableEq, Repr

/-- `NotificationPreferences` record of `conversationManager.ts`. -/
structure NotificationPreferences where
  userId : String
  channels : List String
  alertTypes : List String
  quietHours : Option QuietHours
  escalationRules : Option EscalationRules
deriving DecidableEq, Repr

/-- `ConversationManager.isQuietHours`, with the current clock time passed
in using the same `HHMM` encoding the source computes from `Date`. -/
def isQuietHours (nowHM : Nat) (qh : QuietHours) : Bool :=
  let startTime := parseTimeString qh.start
  let endTime := parseTimeString qh.endT
  if startTime ≤ endTime then
    decide (nowHM ≥ startTime) && decide (nowHM ≤ endTime)
  else
    decide (nowHM ≥ startTime) || decide (nowHM ≤ endTime)

/-- Lookup in an association list, the model of `Map.get`. -/
def lookupA {α : Type} (l : List (String × α)) (k : String) : Option α :=
  match l with
  | [] => none
  | (k', v) :: rest => if k' = k then some v else lookupA rest k

/-- Insert into an association list, the model of `Map.set`: replaces the
binding in place when the key exists (JS Maps keep the original insertion
position), appends otherwise. -/
def insertA {α : Type} (l : List (String × α)) (k : String) (v : α) : List (String × α) :=
  match l with
  | [] => [(k, v)]
  | (k', v') :: rest => if k' = k then (k, v) :: rest else (k', v') :: insertA rest k v

/-- The keys of an association list, in order. -/
def keysOf {α : Type} (l : List (String × α)) : List String :=
  l.map Prod.fst

/-- Per-user response preferences stored inside a conversation context. -/
structure UserPrefs where
  detailLevel : String
  responseFormat : String
deriving DecidableEq, Repr

/-- The `context` sub-record of `ConversationState`. -/
structure ConvContext where
  currentTopic : Option String
  securityLevel : Option SecurityLevel
  previousQueries : List String
  userPreferences : Option UserPrefs
deriving DecidableEq, Repr

/-- `ConversationState` of `conversationManager.ts`. `lastActivity` is a
millisecond timestamp (see the header on the ISO-string order isomorphism). -/
structure ConversationState where
  conversationId : String
  threadId : Option String
  userId : String
  userName : Option String
  lastActivity : Nat
  messageCount : Nat
  context : ConvContext
deriving DecidableEq, Repr

/-- The part of a Bot Framework `ConversationReference` the engine reads:
the conversation id, `user?.id` and `channelId`. -/
structure ConversationReference where
  conversationId : String
  user : Option String
  channelId : String
deriving DecidableEq, Repr

/-- The three module-level maps owned by `ConversationManager`. -/
structure ManagerState where
  conversationStates : List (String × ConversationState)
  conversationReferences : List (String × ConversationReference)
  userPreferences : List (String × NotificationPreferences)
deriving DecidableEq, Repr

/-- The manager at process start: all three maps empty. -/
def emptyManager : ManagerState :=
  { conversationStates := [], conversationReferences := [], userPreferences := [] }

/-- The fields of a `TurnContext` read by `updateConversationState`:
`activity.conversation.id`, `activity.from.id`, `activity.from.name`,
`activity.text`, and the activity channel used for the stored reference. -/
structure TurnCtx where
  conversationId : String
  userId : String
  userName : String
  channelId : String
  text : Option String
deriving DecidableEq, Repr

/-- The rolling-history cap of `updateConversationState`: keep only the
last 5 queries when more than 5 are stored (`slice(-5)`). -/
def capQueries (l : List String) : List String :=
  if l.length > 5 then sliceLast l 5 else l

/-- `ConversationManager.updateConversationState`: create or bump the
session, record the normalized query and reclassify urgency/topic when the
activity carries (truthy) text, and store the conversation reference for
later proactive delivery. -/
def updateConversationState (now : Nat) (mgr : ManagerState) (ctx : TurnCtx)
    (threadId : Option String) : ManagerState :=
  let base :=
    match lookupA mgr.conversationStates ctx.conversationId with
    | none =>
      { conversationId := ctx.conversationId
        threadId := none
        userId := ctx.userId
        userName := some ctx.userName
        lastActivity := now
        messageCount := 1
        context :=
          { currentTopic := none
            securityLevel := none
            previousQueries := []
            userPreferences := some { detailLevel := "detailed", responseFormat := "text" } } }
    | some st => { st with lastActivity := now, messageCount := st.messageCount + 1 }
  let st1 :=
    match threadId with
    | some t => if strIsEmpty t then base else { base with threadId := some t }
    | none => base
  let st2 :=
    if jsTruthy ctx.text then
      let q := normalizeQuery (ctx.text.getD "")
      { st1 with
        context :=
          { st1.context with
            previousQueries := capQueries (st1.context.previousQueries ++ [q])
            securityLevel := some (detectSecurityLevel q)
            currentTopic := some (detectCurrentTopic q) } }
    else st1
  { mgr with
    conversationStates := insertA mgr.conversationStates ctx.conversationId st2
    conversationReferences :=
      insertA mgr.conversationReferences ctx.conversationId
        { conversationId := ctx.conversationId
          user := some ctx.userId
          channelId := ctx.channelId } }

/-- `ConversationManager.getConversationState`. -/
def getConversationState (mgr : ManagerState) (conversationId : String) :
    Option ConversationState :=
  lookupA mgr.conversationStates conversationId

/-- `ConversationManager.getAllConversationReferences`: the values of the
reference map, in insertion order. -/
def getAllConversationReferences (mgr : ManagerState) : List ConversationReference :=
  mgr.conversationReferences.map Prod.snd

/-- `ConversationManager.setUserPreferences`. -/
def setUserPreferences (mgr : ManagerState) (userId : String)
    (prefs : NotificationPreferences) : ManagerState :=
  { mgr with userPreferences := insertA mgr.userPreferences userId prefs }

/-- `ConversationManager.shouldNotifyUser`: accept by default when no
preference record exists; otherwise reject non-critical priorities during
quiet hours, then reject alert types outside a non-empty allow list, then
reject non-critical priorities under a critical-only escalation rule. -/
def shouldNotifyUser (mgr : ManagerState) (nowHM : Nat) (userId alertType priority : String) :
    Bool :=
  match lookupA mgr.userPreferences userId with
  | none => true
  | some prefs =>
    if (match prefs.quietHours with
        | some qh => isQuietHours nowHM qh
        | none => false) && priority != "critical" then false
    else if decide (prefs.alertTypes.length > 0) && !(prefs.alertTypes.contains alertType) then
      false
    else if (match prefs.escalationRules with
             | some er => er.criticalOnly
             | none => false) && priority != "critical" then false
    else true

/-- The topic context line appended by `enhancePromptWithContext`. -/
def topicContextLine (t : String) : String :=
  "\n\nContext: This conversation is focusing on " ++ t ++ "."

/-- The recent-queries line appended by `enhancePromptWithContext`
(`slice(-3).join(", ")`). -/
def recentTopicsLine (qs : List String) : String :=
  "\n\nRecent discussion topics: " ++ intercalateStr ", " (sliceLast qs 3)

/-- The detail-level directive appended by `enhancePromptWithContext`. -/
def detailPrefLine (d : String) : String :=
  "\n\nUser preference: Provide " ++ d ++ " responses."

/-- `ConversationManager.enhancePromptWithContext`: returns the prompt
unchanged when the session is unknown or has no recorded queries;
otherwise appends the topic line (whenever `currentTopic` is truthy), the
recent-queries line (only when more than one query is stored) and the
detail-level directive (whenever the stored preference is truthy). -/
def enhancePromptWithContext (mgr : ManagerState) (prompt conversationId : String) : String :=
  match lookupA mgr.conversationStates conversationId with
  | none => prompt
  | some st =>
    if st.context.previousQueries.length = 0 then prompt
    else
      let e1 := prompt ++
        (match st.context.currentTopic with
         | some t => if strIsEmpty t then "" else topicContextLine t
         | none => "")
      let e2 := e1 ++
        (if st.context.previousQueries.length > 1 then
          recentTopicsLine st.context.previousQueries
        else "")
      e2 ++
        (match st.context.userPreferences with
         | some up => if strIsEmpty up.detailLevel then "" else detailPrefLine up.detailLevel
         | none => "")

/-- Milliseconds per hour, the unit used for `setHours` arithmetic. -/
def msPerHour : Nat := 3600000

/-- `ConversationManager.cleanupOldStates`: evict every session whose
`lastActivity` is strictly before `now - maxAgeHours` hours, delete the
matching conversation references, and return the number evicted. -/
def cleanupOldStates (now maxAgeHours : Nat) (mgr : ManagerState) : Nat × ManagerState :=
  let cutoff := now - maxAgeHours * msPerHour
  let evictedIds :=
    keysOf (mgr.conversationStates.filter (fun p => decide (p.2.lastActivity < cutoff)))
  (evictedIds.length,
   { mgr with
     conversationStates :=
       mgr.conversationStates.filter (fun p => !decide (p.2.lastActivity < cutoff))
     conversationReferences :=
       mgr.conversationReferences.filter (fun p => !(evictedIds.contains p.1)) })

/-- JS `Math.round (a / b)` for nonnegative operands: half rounds up. -/
def jsRound (a b : Nat) : Nat :=
  (2 * a + b) / (2 * b)

/-- The snapshot returned by `ConversationManager.getStatistics`. -/
structure ConversationStatistics where
  totalConversations : Nat
  activeConversations : Nat
  totalMessages : Nat
  averageMessagesPerConversation : Nat
  levelLow : Nat
  levelMedium : Nat
  levelHigh : Nat
  levelCritical : Nat
deriving DecidableEq, Repr

/-- `ConversationManager.getStatistics`: read-only metrics over the session
map; a session is active when `lastActivity` is strictly after 24 hours
ago. -/
def getStatistics (now : Nat) (mgr : ManagerState) : ConversationStatistics :=
  let states := mgr.conversationStates.map Prod.snd
  let total := states.length
  let oneDayAgo := now - 24 * msPerHour
  let totalMessages := (states.map (fun st => st.messageCount)).sum
  let countLevel := fun (lv : SecurityLevel) =>
    (states.filter (fun st => st.context.securityLevel = some lv)).length
  { totalConversations := total
    activeConversations := (states.filter (fun st => decide (oneDayAgo < st.lastActivity))).length
    totalMessages := totalMessages
    averageMessagesPerConversation := if total > 0 then jsRound totalMessages total else 0
    levelLow := countLevel .low
    levelMedium := countLevel .medium
    levelHigh := countLevel .high
    levelCritical := countLevel .critical }

/-- The state-changing entry points of the manager, used to describe the
set of reachable manager states. -/
inductive MgrOp where
  | update (now : Nat) (ctx : TurnCtx) (threadId : Option String)
  | cleanup (now maxAgeHours : Nat)
  | setPrefs (userId : String) (prefs : NotificationPreferences)

/-- Apply one manager operation. -/
def applyOp (m : ManagerState) : MgrOp → ManagerState
  | .update now ctx tid => updateConversationState now m ctx tid
  | .cleanup now h => (cleanupOldStates now h m).2
  | .setPrefs uid p => setUserPreferences m uid p

/-- Run a sequence of manager operations from the initial empty manager. -/
def runOps (ops : List MgrOp) : ManagerState :=
  ops.foldl applyOp emptyManager

/-- The skip test of the `targetUsers` filter in
`ProactiveNotifier.sendNotification`: with a non-empty target list, skip a
reference whose `user?.id` is falsy or not in the list. -/
def fanoutTargetSkip (targetUsers : Option (List String)) (r : ConversationReference) : Bool :=
  match targetUsers with
  | some ts =>
    decide (ts.length > 0) &&
      (match r.user with
       | some uid => strIsEmpty uid || !(ts.contains uid)
       | none => true)
  | none => false

/-- The preference skip test of `ProactiveNotifier.sendNotification`:
`shouldNotifyUser` is consulted only when the reference carries a truthy
`user?.id`. -/
def fanoutPrefSkip (mgr : ManagerState) (nowHM : Nat) (ptype priority : String)
    (r : ConversationReference) : Bool :=
  match r.user with
  | some uid => !(strIsEmpty uid) && !(shouldNotifyUser mgr nowHM uid ptype priority)
  | none => false

/-- A reference survives the fanout filtering when neither skip fires. -/
def fanoutSurvives (mgr : ManagerState) (nowHM : Nat) (ptype priority : String)
    (targetUsers : Option (List String)) (r : ConversationReference) : Bool :=
  !(fanoutTargetSkip targetUsers r) && !(fanoutPrefSkip mgr nowHM ptype priority r)

/-- The recipient loop of `ProactiveNotifier.sendNotification`: for each
stored reference, apply the target filter and the preference filter and
start a delivery (`adapter.continueConversation`, a promise pushed before
any is awaited) for each survivor. The returned list is the list of
dispatches started, in order. -/
def fanoutLoop (mgr : ManagerState) (nowHM : Nat) (ptype priority : String)
    (targetUsers : Option (List String)) : List ConversationReference → List ConversationReference
  | [] => []
  | r :: rest =>
    if fanoutTargetSkip targetUsers r then
      fanoutLoop mgr nowHM ptype priority targetUsers rest
    else if fanoutPrefSkip mgr nowHM ptype priority r then
      fanoutLoop mgr nowHM ptype priority targetUsers rest
    else
      r :: fanoutLoop mgr nowHM ptype priority targetUsers rest

/-- Observable outcome of `ProactiveNotifier.sendNotification`.  The
method itself returns `void`; `attempted` is the list of dispatches it
started, `succeededCount` the number of those whose delivery promise did
not reject (`sendFails` says which deliveries reject at the
`continueConversation` level; errors inside `sendActivity` are caught one
level deeper and never reject the delivery promise), and `loggedCount` the
`deliveryPromises.length` value written to the log. -/
structure FanoutOutcome where
  attempted : List ConversationReference
  succeededCount : Nat
  loggedCount : Nat
deriving DecidableEq, Repr

/-- `ProactiveNotifier.sendNotification` over the stored references. -/
def sendNotification (mgr : ManagerState) (nowHM : Nat) (ptype priority : String)
    (targetUsers : Option (List String)) (sendFails : ConversationReference → Bool) :
    FanoutOutcome :=
  let started := fanoutLoop mgr nowHM ptype priority targetUsers (getAllConversationReferences mgr)
  { attempted := started
    succeededCount := (started.filter (fun r => !(sendFails r))).length
    loggedCount := started.length }

/-- The skip test of `sendNotificationsToAllInstallations` in the HTTP
trigger module: with a non-empty target-user list a reference is skipped
only when it carries a truthy user id that is not listed, and with a
non-empty target-channel list when its channel is not listed. -/
def installSkip (targetUsers targetChannels : Option (List String))
    (r : ConversationReference) : Bool :=
  (match targetUsers with
   | some ts =>
     decide (ts.length > 0) &&
       (match r.user with
        | some uid => !(strIsEmpty uid) && !(ts.contains uid)
        | none => false)
   | none => false) ||
  (match targetChannels with
   | some cs => decide (cs.length > 0) && !(cs.contains r.channelId)
   | none => false)

/-- The per-installation send loop of `sendNotificationsToAllInstallations`:
each dispatch runs inside its own try/catch, so one failure never stops the
loop; the function counts the dispatches that did not throw and returns
that count. The second component is the list of dispatches attempted. -/
def sendInstallLoop (targetUsers targetChannels : Option (List String))
    (sendFails : ConversationReference → Bool) :
    List ConversationReference → Nat × List ConversationReference
  | [] => (0, [])
  | r :: rest =>
    if installSkip targetUsers targetChannels r then
      sendInstallLoop targetUsers targetChannels sendFails rest
    else
      let (c, a) := sendInstallLoop targetUsers targetChannels sendFails rest
      if sendFails r then (c, r :: a) else (c + 1, r :: a)

/-- `getStoredConversationReferences` of the HTTP trigger module: the
storage retrieval is unimplemented and always yields the empty list. -/
def getStoredConversationReferences : List ConversationReference := []

/-- Body of `/api/notification` requests. -/
structure NotificationRequest where
  prompt : Option String
  title : Option String
  notificationUrl : Option String
  targetUsers : Option (List String)
  targetChannels : Option (List String)
deriving DecidableEq, Repr

/-- Body of `/api/securityAlert` requests. -/
structure SecurityAlertRequest where
  id : Option String
  title : Option String
  description : Option String
  severity : Option String
  category : Option String
  source : Option String
  affectedSystems : Option (List String)
  recommendedActions : Option (List String)
  targetUsers : Option (List String)
deriving DecidableEq, Repr

/-- The response fields the HTTP handlers produce (each body key is
`none` when the handler omits it). -/
structure HttpRespM where
  status : Nat
  errorMsg : Option String
  success : Option Bool
  message : Option String
  recipientCount : Option Nat
  alertId : Option String
  errorDetails : Option String
deriving DecidableEq, Repr

/-- Side effects a handler can attempt after validation. -/
inductive SideEffect where
  | agentCall (prompt : String)
  | dispatch (r : ConversationReference)
deriving DecidableEq, Repr

/-- The 400 body text of the notification handler. -/
def missingPromptError : String := "Missing required \x27prompt\x27 field in request body"

/-- The 400 body text of the securityAlert handler. -/
def securityAlertMissingMsg : String := "Missing required fields: id, title, description"

/-- The `httpTrigger` handler of `/api/notification`: reject non-POST
methods, then reject a missing (falsy) `prompt` with a 400 `{error}` body
before the agent call and any dispatch; otherwise run the prompt through
the agent and fan the generated card out to the stored installation
references (always empty, see `getStoredConversationReferences`). -/
def notificationHttpTrigger (method : String) (req : NotificationRequest)
    (agentResult : Except String String) (sendFails : ConversationReference → Bool) :
    HttpRespM × List SideEffect :=
  if method != "POST" then
    ({ status := 405
       errorMsg := some "Method not allowed. Only POST requests are supported."
       success := none, message := none, recipientCount := none, alertId := none
       errorDetails := none }, [])
  else if !(jsTruthy req.prompt) then
    ({ status := 400, errorMsg := some missingPromptError
       success := none, message := none, recipientCount := none, alertId := none
       errorDetails := none }, [])
  else
    let prompt := req.prompt.getD ""
    match agentResult with
    | .error e =>
      ({ status := 500, errorMsg := none, success := some false
         message := some "Failed to send notifications", recipientCount := none
         alertId := none, errorDetails := some e }, [SideEffect.agentCall prompt])
    | .ok _ =>
      let (cnt, attempted) :=
        sendInstallLoop req.targetUsers req.targetChannels sendFails
          getStoredConversationReferences
      ({ status := 200, errorMsg := none, success := some true
         message := some "Notifications sent successfully", recipientCount := some cnt
         alertId := none, errorDetails := none },
       SideEffect.agentCall prompt :: attempted.map SideEffect.dispatch)

/-- The `/api/securityAlert` handler: reject a falsy `id`, `title` or
`description` with a 400 `{success, message}` body (no `error` key) before
any dispatch; otherwise build the alert (severity defaulting to `medium`,
category to `threat`), fan it out through `ProactiveNotifier`
(`sendSecurityAlert` sets the payload type to `alert` and the priority to
the severity), and answer 200 with `recipientCount` taken from
`getStatistics().activeConversations`. -/
def securityAlertHandler (mgr : ManagerState) (now nowHM : Nat) (req : SecurityAlertRequest)
    (sendFails : ConversationReference → Bool) : HttpRespM × List SideEffect :=
  if !(jsTruthy req.id) || !(jsTruthy req.title) || !(jsTruthy req.description) then
    ({ status := 400, errorMsg := none, success := some false
       message := some securityAlertMissingMsg, recipientCount := none, alertId := none
       errorDetails := none }, [])
  else
    let severity := jsOrElse req.severity "medium"
    let fan := sendNotification mgr nowHM "alert" severity req.targetUsers sendFails
    let stats := getStatistics now mgr
    ({ status := 200, errorMsg := none, success := some true
       message := some "Security alert sent successfully"
       recipientCount := some stats.activeConversations
       alertId := req.id, errorDetails := none },
     fan.attempted.map SideEffect.dispatch)

/-- The reply produced by the AI agent for one prompt. -/
structure AgentResponse where
  message : String
  threadId : String
deriving DecidableEq, Repr

/-- One round of answers from the external AI backend, used to resolve the
calls `AgentConnector.processPrompt` makes: thread creation, message
creation, run status (with the optional `lastError` message) and the text
of the latest thread message, if any. -/
structure AgentBackend where
  createThread : Except String String
  createMessage : Except String Unit
  runResult : Except String String
  runLastError : Option String
  latestMessageText : Option String
deriving Repr

/-- The in-thread fallback reply of `AgentConnector.processPrompt` when the
run ends without a usable message. -/
def agentFallbackMessage : String :=
  "I\x27m sorry, I couldn\x27t process your request at the moment. Please try again later."

/-- The steps of `AgentConnector.processPrompt` after a thread id is in
hand: post the message, poll the run, and either return the latest reply,
throw on a failed run, or fall back to the apology reply. Errors are
rethrown by the surrounding catch, so they propagate to the caller. -/
def processPromptWithThread (backend : AgentBackend) (threadId : String) :
    Except String AgentResponse :=
  match backend.createMessage with
  | .error e => .error e
  | .ok _ =>
    match backend.runResult with
    | .error e => .error e
    | .ok status =>
      if status = "completed" then
        match backend.latestMessageText with
        | some t => .ok { message := t, threadId := threadId }
        | none => .ok { message := agentFallbackMessage, threadId := threadId }
      else if status = "failed" then
        .error ("Agent run failed: " ++ (backend.runLastError.getD "Unknown error"))
      else
        .ok { message := agentFallbackMessage, threadId := threadId }

/-- `AgentConnector.processPrompt`: resolve the cached thread for the
conversation (creating and caching one when absent), then run the
prompt. Returns the response together with the updated thread cache. -/
def processPrompt (threadCache : List (String × String)) (conversationId : Option String)
    (backend : AgentBackend) : Except String (AgentResponse × List (String × String)) :=
  let cached :=
    match conversationId with
    | some cid => lookupA threadCache cid
    | none => none
  match cached with
  | some tid =>
    match processPromptWithThread backend tid with
    | .error e => .error e
    | .ok r => .ok (r, threadCache)
  | none =>
    match backend.createThread with
    | .error e => .error e
    | .ok tid =>
      let cache' :=
        match conversationId with
        | some cid => insertA threadCache cid tid
        | none => threadCache
      match processPromptWithThread backend tid with
      | .error e => .error e
      | .ok r => .ok (r, cache')

/-- An activity sent back to the conversation by the bot. -/
inductive Activity where
  | typing
  | text (s : String)
deriving DecidableEq, Repr

/-- The fallback apology `TeamsBot.handleMessage` sends from its catch
block. -/
def botErrorFallback : String :=
  "I\x27m sorry, I encountered an error processing your message. Please try again later."

/-- The try block of `TeamsBot.handleMessage`: bail out on falsy text,
update the conversation state, send the typing indicator, call the agent
and send its reply. On a thrown error the activities already sent are
carried into the catch. Mention stripping and prompt enhancement only
transform the prompt string handed to the agent, which the `agentResult`
parameter already accounts for. -/
def handleMessageTry (now : Nat) (mgr : ManagerState) (ctx : TurnCtx)
    (agentResult : Except String AgentResponse) :
    Except (String × List Activity × ManagerState) (List Activity × ManagerState) :=
  match ctx.text with
  | none => .ok ([], mgr)
  | some s =>
    if strIsEmpty s then .ok ([], mgr)
    else
      let mgr1 := updateConversationState now mgr ctx none
      match agentResult with
      | .ok r => .ok ([Activity.typing, Activity.text r.message], mgr1)
      | .error e => .error (e, [Activity.typing], mgr1)

/-- `TeamsBot.handleMessage`: the catch block converts any thrown error
into the fallback apology sent to the conversation, so the handler always
completes normally. The result is the list of activities sent. -/
def handleMessage (now : Nat) (mgr : ManagerState) (ctx : TurnCtx)
    (agentResult : Except String AgentResponse) : List Activity × ManagerState :=
  match handleMessageTry now mgr ctx agentResult with
  | .ok (acts, m) => (acts, m)
  | .error (_, sent, m) => (sent ++ [Activity.text botErrorFallback], m)

/-- A concrete inbound turn used by the concrete scenarios below. -/
def mkTurn (cid uid text : String) : TurnCtx :=
  { conversationId := cid, userId := uid, userName := "User", channelId := "msteams"
    text := some text }

/-- A concrete clock instant (25 hours in milliseconds), so that sessions
updated at `tNow` are active for the 24-hour statistics window. -/
def tNow : Nat := 90000000

/-- Manager after three conversations have each sent one message. -/
def mgrThree : ManagerState :=
  runOps [MgrOp.update tNow (mkTurn "c1" "u1" "hello") none,
          MgrOp.update tNow (mkTurn "c2" "u2" "hello") none,
          MgrOp.update tNow (mkTurn "c3" "u3" "hello") none]

/-- Dispatch oracle under which exactly the delivery to `c2` rejects. -/
def failSecond : ConversationReference → Bool := fun r => r.conversationId == "c2"

/-- A well-formed securityAlert request without severity or category. -/
def alertReqFull : SecurityAlertRequest :=
  { id := some "a1", title := some "T", description := some "D"
    severity := none, category := none, source := none
    affectedSystems := none, recommendedActions := none, targetUsers := none }

/-- The same request with the required `id` missing. -/
def alertReqNoId : SecurityAlertRequest :=
  { alertReqFull with id := none }

/-- A notification request missing the required `prompt`. -/
def notifReqNoPrompt : NotificationRequest :=
  { prompt := none, title := none, notificationUrl := none
    targetUsers := none, targetChannels := none }

/-- Manager after a single conversation sent the message `"hello"` (whose
inferred topic is the default `"general security"`). -/
def mgrHello : ManagerState :=
  runOps [MgrOp.update 1000 (mkTurn "c1" "u1" "hello") none]

/-- Preference record with quiet hours 22:00–06:00 and no other limits. -/
def quietPrefs : NotificationPreferences :=
  { userId := "u1", channels := [], alertTypes := []
    quietHours := some { start := "22:00", endT := "06:00" }, escalationRules := none }

/-- A stored reference that carries no user id. -/
def refNoUser : ConversationReference :=
  { conversationId := "cX", user := none, channelId := "msteams" }

/-- A sequence of `update` calls for one conversation, each carrying a
message text, as claimed for the session counters: one operation per
`(now, text)` pair. -/
def updatesFor (cid uid uname chan : String) (msgs : List (Nat × String)) : List MgrOp :=
  msgs.map (fun p => MgrOp.update p.1
    { conversationId := cid, userId := uid, userName := uname, channelId := chan
      text := some p.2 } none)

/-- The evolution of the rolling query history over a list of normalized
queries: append then cap at 5, exactly as each `update` call does. -/
def evolveQueries (init : List String) (qs : List String) : List String :=
  qs.foldl (fun acc q => capQueries (acc ++ [q])) init

/-- The session stored for `c2` inside `mgrThree` (concrete test vector). -/
def stC2 : ConversationState :=
  { conversationId := "c2", threadId := none, userId := "u2", userName := some "User"
    lastActivity := tNow, messageCount := 1
    context :=
      { currentTopic := some "general security", securityLevel := some SecurityLevel.low
        previousQueries := ["hello"]
        userPreferences := some { detailLevel := "detailed", responseFormat := "text" } } }

/-- Manager after the same conversation sent two messages. -/
def mgrTwo : ManagerState :=
  runOps [MgrOp.update 1 (mkTurn "c1" "u1" "threat intel") none,
          MgrOp.update 2 (mkTurn "c1" "u1" "more details please") none]

/-- The session stored for `c1` inside `mgrTwo` (concrete test vector). -/
def stTwo : ConversationState :=
  { conversationId := "c1", threadId := none, userId := "u1", userName := some "User"
    lastActivity := 2, messageCount := 2
    context :=
      { currentTopic := some "general security", securityLevel := some SecurityLevel.low
        previousQueries := ["threat intel", "more details please"]
        userPreferences := some { detailLevel := "detailed", responseFormat := "text" } } }

set_option maxRecDepth 10000

/-! ### Helper lemmas -/

theorem char_toLower_eq (c : Char) :
    c.toLower = if c.toNat ≥ 65 ∧ c.toNat ≤ 90 then Char.ofNat (c.toNat + 32) else c := rfl

theorem char_toLower_toLower (c : Char) : c.toLower.toLower = c.toLower := by
  by_cases h : c.toNat ≥ 65 ∧ c.toNat ≤ 90
  · rw [char_toLower_eq c, if_pos h]
    have hv : (c.toNat + 32).isValidChar := Or.inl (by omega)
    have htn : (Char.ofNat (c.toNat + 32)).toNat = c.toNat + 32 := by
      unfold Char.ofNat
      rw [dif_pos hv]
      rfl
    rw [char_toLower_eq, htn, if_neg (by omega)]
  · rw [char_toLower_eq c, if_neg h, char_toLower_eq c, if_neg h]

theorem toLowerStr_toLowerStr (s : String) : toLowerStr (toLowerStr s) = toLowerStr s := by
  unfold toLowerStr
  refine congrArg String.mk ?_
  rw [List.map_map]
  exact List.map_congr_left (fun c _ => char_toLower_toLower c)

theorem keysOf_cons {α : Type} (p : String × α) (l : List (String × α)) :
    keysOf (p :: l) = p.1 :: keysOf l := rfl

theorem lookupA_insertA_self {α : Type} (l : List (String × α)) (k : String) (v : α) :
    lookupA (insertA l k v) k = some v := by
  induction l with
  | nil => simp [insertA, lookupA]
  | cons p rest ih =>
    obtain ⟨k', v'⟩ := p
    by_cases h : k' = k
    · simp [insertA, lookupA, h]
    · simp [insertA, lookupA, h, ih]

theorem lookupA_insertA_ne {α : Type} (l : List (String × α)) (k k' : String) (v : α)
    (h : k' ≠ k) : lookupA (insertA l k v) k' = lookupA l k' := by
  have hne : ¬(k = k') := fun hh => h hh.symm
  induction l with
  | nil => simp [insertA, lookupA, hne]
  | cons p rest ih =>
    obtain ⟨k₀, v₀⟩ := p
    by_cases h0 : k₀ = k
    · subst h0
      simp [insertA, lookupA, hne]
    · simp only [insertA, if_neg h0, lookupA]
      by_cases h1 : k₀ = k'
      · simp [h1]
      · simp [h1, ih]

theorem lookupA_mem {α : Type} {l : List (String × α)} {k : String} {v : α}
    (h : lookupA l k = some v) : (k, v) ∈ l := by
  induction l with
  | nil => simp [lookupA] at h
  | cons p rest ih =>
    obtain ⟨k', v'⟩ := p
    by_cases hk : k' = k
    · subst hk
      simp [lookupA] at h
      simp [h]
    · simp [lookupA, hk] at h
      exact List.mem_cons_of_mem _ (ih h)

theorem mem_insertA {α : Type} {l : List (String × α)} {k : String} {v : α}
    {p : String × α} (h : p ∈ insertA l k v) : p = (k, v) ∨ p ∈ l := by
  induction l with
  | nil => simpa [insertA] using h
  | cons q rest ih =>
    obtain ⟨k', v'⟩ := q
    by_cases hk : k' = k
    · subst hk
      simp [insertA] at h
      rcases h with h | h
      · exact Or.inl h
      · exact Or.inr (List.mem_cons_of_mem _ h)
    · simp only [insertA, if_neg hk, List.mem_cons] at h
      rcases h with h | h
      · exact Or.inr (by simp [h])
      · rcases ih h with h' | h'
        · exact Or.inl h'
        · exact Or.inr (List.mem_cons_of_mem _ h')

theorem lookupA_eq_none_of_not_mem {α : Type} {l : List (String × α)} {k : String}
    (h : k ∉ keysOf l) : lookupA l k = none := by
  induction l with
  | nil => rfl
  | cons p rest ih =>
    obtain ⟨k', v'⟩ := p
    rw [keysOf_cons, List.mem_cons] at h
    push_neg at h
    have hne : ¬(k' = k) := fun hh => h.1 hh.symm
    simp only [lookupA, if_neg hne]
    exact ih h.2

theorem keysOf_insertA {α : Type} (l : List (String × α)) (k : String) (v : α) :
    keysOf (insertA l k v) = if k ∈ keysOf l then keysOf l else keysOf l ++ [k] := by
  induction l with
  | nil => simp [insertA, keysOf]
  | cons p rest ih =>
    obtain ⟨k', v'⟩ := p
    by_cases h : k' = k
    · subst h
      simp [insertA, keysOf]
    · have hkk : ¬(k = k') := fun hh => h hh.symm
      rw [keysOf_cons]
      by_cases hmem : k ∈ keysOf rest
      · rw [if_pos (List.mem_cons_of_mem _ hmem)]
        simp only [insertA, if_neg h, keysOf_cons]
        rw [ih, if_pos hmem]
      · rw [if_neg (by
          rw [List.mem_cons]
          push_neg
          exact ⟨hkk, hmem⟩)]
        simp only [insertA, if_neg h, keysOf_cons]
        rw [ih, if_neg hmem]
        rfl

theorem keysOf_filter_sublist {α : Type} (l : List (String × α)) (P : String × α → Bool) :
    List.Sublist (keysOf (l.filter P)) (keysOf l) :=
  List.Sublist.map Prod.fst (List.filter_sublist l)

theorem nodup_keysOf_insertA {α : Type} {l : List (String × α)} (k : String) (v : α)
    (h : (keysOf l).Nodup) : (keysOf (insertA l k v)).Nodup := by
  rw [keysOf_insertA]
  by_cases hmem : k ∈ keysOf l
  · simpa [hmem] using h
  · rw [if_neg hmem]
    refine List.nodup_append.mpr ⟨h, List.nodup_singleton k, ?_⟩
    intro a ha hb
    rw [List.mem_singleton] at hb
    subst hb
    exact hmem ha

theorem lookupA_filter_keep {α : Type} {l : List (String × α)} {k : String} {v : α}
    {P : String × α → Bool} (h : lookupA l k = some v) (hp : P (k, v) = true) :
    lookupA (l.filter P) k = some v := by
  induction l with
  | nil => simp [lookupA] at h
  | cons p rest ih =>
    obtain ⟨k', v'⟩ := p
    by_cases hk : k' = k
    · subst hk
      simp only [lookupA, if_pos rfl] at h
      cases h
      simp [List.filter_cons, hp, lookupA]
    · simp only [lookupA, if_neg hk] at h
      cases hpv : P (k', v') with
      | true => simp [List.filter_cons, hpv, lookupA, hk, ih h]
      | false => simp [List.filter_cons, hpv, ih h]

theorem lookupA_filter_drop {α : Type} {l : List (String × α)} {k : String} {v : α}
    {P : String × α → Bool} (hnd : (keysOf l).Nodup) (h : lookupA l k = some v)
    (hp : P (k, v) = false) : lookupA (l.filter P) k = none := by
  induction l with
  | nil => simp [lookupA] at h
  | cons p rest ih =>
    obtain ⟨k', v'⟩ := p
    rw [keysOf_cons, List.nodup_cons] at hnd
    obtain ⟨hnotin, hnd2⟩ := hnd
    by_cases hk : k' = k
    · subst hk
      simp only [lookupA, if_pos rfl] at h
      cases h
      simp only [List.filter_cons, hp, if_neg Bool.false_ne_true]
      apply lookupA_eq_none_of_not_mem
      intro hmem
      exact hnotin ((keysOf_filter_sublist rest P).subset hmem)
    · simp only [lookupA, if_neg hk] at h
      cases hpv : P (k', v') with
      | true => simp [List.filter_cons, hpv, lookupA, hk, ih hnd2 h]
      | false => simp [List.filter_cons, hpv, ih hnd2 h]

/-! ### C4: urgency classification -/

/-- C4: `classifyUrgency` (`detectSecurityLevel`) is a pure case-insensitive
function over four ordered keyword tiers in which the first matching tier
wins, tiers checked critical → high → medium → low so ties favor higher
urgency; concretely `"Ransomware attack detected"` classifies as critical,
`"please review our audit policy"` as medium and `"hello"` as low. -/
theorem c4_classifyUrgency_spec :
    (detectSecurityLevel "Ransomware attack detected" = SecurityLevel.critical ∧
     detectSecurityLevel "please review our audit policy" = SecurityLevel.medium ∧
     detectSecurityLevel "hello" = SecurityLevel.low) ∧
    (∀ q : String, detectSecurityLevel q = detectSecurityLevel (toLowerStr q)) ∧
    (∀ q : String,
      criticalKeywords.any (fun k => strContains (toLowerStr q) k) = true →
      detectSecurityLevel q = SecurityLevel.critical) ∧
    (∀ q : String,
      criticalKeywords.any (fun k => strContains (toLowerStr q) k) = false →
      highKeywords.any (fun k => strContains (toLowerStr q) k) = true →
      detectSecurityLevel q = SecurityLevel.high) ∧
    (∀ q : String,
      criticalKeywords.any (fun k => strContains (toLowerStr q) k) = false →
      highKeywords.any (fun k => strContains (toLowerStr q) k) = false →
      mediumKeywords.any (fun k => strContains (toLowerStr q) k) = true →
      detectSecurityLevel q = SecurityLevel.medium) ∧
    (∀ q : String,
      criticalKeywords.any (fun k => strContains (toLowerStr q) k) = false →
      highKeywords.any (fun k => strContains (toLowerStr q) k) = false →
      mediumKeywords.any (fun k => strContains (toLowerStr q) k) = false →
      detectSecurityLevel q = SecurityLevel.low) := by
  refine ⟨⟨by decide, by decide, by decide⟩, ?_, ?_, ?_, ?_, ?_⟩
  · intro q
    simp only [detectSecurityLevel, toLowerStr_toLowerStr]
  · intro q h
    simp [detectSecurityLevel, h]
  · intro q h1 h2
    simp [detectSecurityLevel, h1, h2]
  · intro q h1 h2 h3
    simp [detectSecurityLevel, h1, h2, h3]
  · intro q h1 h2 h3
    simp [detectSecurityLevel, h1, h2, h3]

/-- Witness for C4: the tiered classification applied at concrete inputs,
including a tie between the critical keyword `urgent` and the high keyword
`alert` resolved in favor of critical. -/
theorem c4_classifyUrgency_witness :
    detectSecurityLevel "URGENT alert" = SecurityLevel.critical ∧
    detectSecurityLevel "suspicious login" = SecurityLevel.high ∧
    detectSecurityLevel "policy question" = SecurityLevel.medium ∧
    detectSecurityLevel "good morning" = SecurityLevel.low :=
  ⟨c4_classifyUrgency_spec.2.2.1 "URGENT alert" (by decide),
   c4_classifyUrgency_spec.2.2.2.1 "suspicious login" (by decide) (by decide),
   c4_classifyUrgency_spec.2.2.2.2.1 "policy question" (by decide) (by decide) (by decide),
   c4_classifyUrgency_spec.2.2.2.2.2 "good morning" (by decide) (by decide) (by decide)⟩

/-! ### C2: shouldNotify preference checks -/

/-- C2: `shouldNotify` returns true for users without a stored preference
record; during configured quiet hours (including windows wrapping
midnight) only critical priority passes; a non-empty allowed-category set
that excludes the category rejects; a critical-only escalation rule
rejects non-critical priorities; concretely, with quiet hours 22:00–06:00
the clock time 23:30 is inside the window (so high is rejected and
critical accepted) while 12:00 is outside it (so the quiet-hours check
imposes no restriction). -/
theorem c2_shouldNotify_spec :
    (∀ (mgr : ManagerState) (nowHM : Nat) (uid t p : String),
      lookupA mgr.userPreferences uid = none →
      shouldNotifyUser mgr nowHM uid t p = true) ∧
    (∀ (mgr : ManagerState) (nowHM : Nat) (uid t p : String)
       (prefs : NotificationPreferences) (qh : QuietHours),
      lookupA mgr.userPreferences uid = some prefs →
      prefs.quietHours = some qh → isQuietHours nowHM qh = true →
      p ≠ "critical" →
      shouldNotifyUser mgr nowHM uid t p = false) ∧
    (∀ (mgr : ManagerState) (nowHM : Nat) (uid t p : String)
       (prefs : NotificationPreferences),
      lookupA mgr.userPreferences uid = some prefs →
      prefs.alertTypes ≠ [] → prefs.alertTypes.contains t = false →
      shouldNotifyUser mgr nowHM uid t p = false) ∧
    (∀ (mgr : ManagerState) (nowHM : Nat) (uid t p : String)
       (prefs : NotificationPreferences) (er : EscalationRules),
      lookupA mgr.userPreferences uid = some prefs →
      prefs.escalationRules = some er → er.criticalOnly = true →
      p ≠ "critical" →
      shouldNotifyUser mgr nowHM uid t p = false) ∧
    (isQuietHours 2330 { start := "22:00", endT := "06:00" } = true ∧
     isQuietHours 1200 { start := "22:00", endT := "06:00" } = false ∧
     shouldNotifyUser (setUserPreferences emptyManager "u1" quietPrefs) 2330 "u1" "alert" "high"
       = false ∧
     shouldNotifyUser (setUserPreferences emptyManager "u1" quietPrefs) 2330 "u1" "alert"
       "critical" = true ∧
     shouldNotifyUser (setUserPreferences emptyManager "u1" quietPrefs) 1200 "u1" "alert" "high"
       = true ∧
     shouldNotifyUser (setUserPreferences emptyManager "u1" quietPrefs) 1200 "u1" "alert" "low"
       = true) := by
  refine ⟨?_, ?_, ?_, ?_, by decide, by decide, by decide, by decide, by decide, by decide⟩
  · intro mgr nowHM uid t p h
    simp [shouldNotifyUser, h]
  · intro mgr nowHM uid t p prefs qh h hq hiq hp
    simp [shouldNotifyUser, h, hq, hiq, bne_iff_ne, hp]
  · intro mgr nowHM uid t p prefs h hne hcont
    have hmem : t ∉ prefs.alertTypes := by simpa using hcont
    simp [shouldNotifyUser, h]
    intro _ h2
    rcases h2 with h2 | h2
    · exact absurd h2 hne
    · exact absurd h2 hmem
  · intro mgr nowHM uid t p prefs er h her hco hp
    simp [shouldNotifyUser, h]
    intro _ _
    exact ⟨by rw [her]; exact hco, hp⟩

/-- Witness for C2: the preference checks applied to the concrete
quiet-hours record and to records exercising the category and escalation
rejections. -/
theorem c2_shouldNotify_witness :
    shouldNotifyUser emptyManager 1200 "nobody" "alert" "low" = true ∧
    shouldNotifyUser (setUserPreferences emptyManager "u1" quietPrefs) 2330 "u1" "alert" "high"
      = false ∧
    shouldNotifyUser
      (setUserPreferences emptyManager "u2"
        { userId := "u2", channels := [], alertTypes := ["incident"]
          quietHours := none, escalationRules := none }) 1200 "u2" "alert" "critical" = false ∧
    shouldNotifyUser
      (setUserPreferences emptyManager "u3"
        { userId := "u3", channels := [], alertTypes := []
          quietHours := none
          escalationRules := some
            { highPriority := false, criticalOnly := true, immediateForKeywords := [] } })
      1200 "u3" "alert" "high" = false :=
  ⟨c2_shouldNotify_spec.1 emptyManager 1200 "nobody" "alert" "low" (by decide),
   c2_shouldNotify_spec.2.1 (setUserPreferences emptyManager "u1" quietPrefs) 2330 "u1" "alert"
     "high" quietPrefs { start := "22:00", endT := "06:00" } (by decide) (by decide) (by decide)
     (by decide),
   c2_shouldNotify_spec.2.2.1 _ 1200 "u2" "alert" "critical"
     { userId := "u2", channels := [], alertTypes := ["incident"]
       quietHours := none, escalationRules := none } (by decide) (by decide) (by decide),
   c2_shouldNotify_spec.2.2.2.1 _ 1200 "u3" "alert" "high"
     { userId := "u3", channels := [], alertTypes := []
       quietHours := none
       escalationRules := some
         { highPriority := false, criticalOnly := true, immediateForKeywords := [] } }
     { highPriority := false, criticalOnly := true, immediateForKeywords := [] }
     (by decide) (by decide) (by decide) (by decide)⟩

/-! ### C10: fanout treatment of references without a user id -/

theorem fanoutLoop_eq_filter (mgr : ManagerState) (nowHM : Nat) (t p : String)
    (tu : Option (List String)) (refs : List ConversationReference) :
    fanoutLoop mgr nowHM t p tu refs =
      refs.filter (fun r => fanoutSurvives mgr nowHM t p tu r) := by
  induction refs with
  | nil => rfl
  | cons r rest ih =>
    by_cases h1 : fanoutTargetSkip tu r = true
    · simp [fanoutLoop, h1, List.filter_cons, fanoutSurvives, ih]
    · rw [Bool.not_eq_true] at h1
      by_cases h2 : fanoutPrefSkip mgr nowHM t p r = true
      · simp [fanoutLoop, h1, h2, List.filter_cons, fanoutSurvives, ih]
      · rw [Bool.not_eq_true] at h2
        simp [fanoutLoop, h1, h2, List.filter_cons, fanoutSurvives, ih]

/-- C10: in a broadcast fanout (no target-user list, or an empty one) a
stored reference without a user id survives the filtering unconditionally
— for every manager state, so no preference is consulted — while with a
non-empty target-user list such a reference is always skipped. -/
theorem c10_fanout_no_userid :
    (∀ (mgr : ManagerState) (nowHM : Nat) (t p : String)
       (tu : Option (List String)) (refs : List ConversationReference)
       (r : ConversationReference),
      r ∈ refs → r.user = none → (tu = none ∨ tu = some []) →
      r ∈ fanoutLoop mgr nowHM t p tu refs) ∧
    (∀ (mgr : ManagerState) (nowHM : Nat) (t p : String)
       (ts : List String) (refs : List ConversationReference)
       (r : ConversationReference),
      r ∈ refs → r.user = none → ts ≠ [] →
      r ∉ fanoutLoop mgr nowHM t p (some ts) refs) := by
  constructor
  · intro mgr nowHM t p tu refs r hr hu htu
    have hskip1 : fanoutTargetSkip tu r = false := by
      rcases htu with h | h <;> subst h <;> simp [fanoutTargetSkip]
    have hskip2 : fanoutPrefSkip mgr nowHM t p r = false := by
      simp [fanoutPrefSkip, hu]
    rw [fanoutLoop_eq_filter]
    rw [List.mem_filter]
    exact ⟨hr, by simp [fanoutSurvives, hskip1, hskip2]⟩
  · intro mgr nowHM t p ts refs r hr hu hts
    have hskip : fanoutTargetSkip (some ts) r = true := by
      simp [fanoutTargetSkip, hu, List.length_pos, hts]
    rw [fanoutLoop_eq_filter]
    rw [List.mem_filter]
    rintro ⟨-, hsv⟩
    simp [fanoutSurvives, hskip] at hsv

/-- Witness for C10: a reference without a user id is dispatched to in a
broadcast and skipped under the explicit target list `["u1"]`. -/
theorem c10_fanout_no_userid_witness :
    refNoUser ∈ fanoutLoop emptyManager 1200 "alert" "high" none [refNoUser] ∧
    refNoUser ∉ fanoutLoop emptyManager 1200 "alert" "high" (some ["u1"]) [refNoUser] :=
  ⟨c10_fanout_no_userid.1 emptyManager 1200 "alert" "high" none [refNoUser] refNoUser
     (by simp) rfl (Or.inl rfl),
   c10_fanout_no_userid.2 emptyManager 1200 "alert" "high" ["u1"] [refNoUser] refNoUser
     (by simp) rfl (by simp)⟩

/-! ### C8: backend failures become a user-visible fallback reply -/

/-- C8: when the AI-backend call for an inbound chat message fails, the
failure is caught at the call site in `handleMessage` and converted into
the fallback apology sent back to the conversation (the handler completes
normally and its sent-activity list ends with the apology), while a
successful call sends the agent reply; `processPrompt` itself rethrows
backend errors, so the conversion happens at its caller. -/
theorem c8_backend_failure_fallback :
    (∀ (now : Nat) (mgr : ManagerState) (ctx : TurnCtx) (s e : String),
      ctx.text = some s → strIsEmpty s = false →
      (handleMessage now mgr ctx (Except.error e)).1 =
        [Activity.typing, Activity.text botErrorFallback]) ∧
    (∀ (now : Nat) (mgr : ManagerState) (ctx : TurnCtx) (s : String) (r : AgentResponse),
      ctx.text = some s → strIsEmpty s = false →
      (handleMessage now mgr ctx (Except.ok r)).1 =
        [Activity.typing, Activity.text r.message]) ∧
    (∀ (cid : Option String) (backend : AgentBackend) (e : String),
      backend.createThread = Except.error e →
      processPrompt [] cid backend = Except.error e) := by
  refine ⟨?_, ?_, ?_⟩
  · intro now mgr ctx s e ht hs
    simp [handleMessage, handleMessageTry, ht, hs]
  · intro now mgr ctx s r ht hs
    simp [handleMessage, handleMessageTry, ht, hs]
  · intro cid backend e h
    cases cid <;> simp [processPrompt, lookupA, h]

/-- Witness for C8: a failing backend call for the concrete turn produces
exactly the typing indicator followed by the fallback apology. -/
theorem c8_backend_failure_witness :
    (handleMessage 5 emptyManager (mkTurn "c1" "u1" "hi") (Except.error "boom")).1 =
      [Activity.typing, Activity.text botErrorFallback] ∧
    (handleMessage 5 emptyManager (mkTurn "c1" "u1" "hi")
        (Except.ok { message := "all good", threadId := "t1" })).1 =
      [Activity.typing, Activity.text "all good"] ∧
    processPrompt [] (some "c1")
        { createThread := Except.error "down", createMessage := Except.ok ()
          runResult := Except.ok "completed", runLastError := none
          latestMessageText := some "x" } = Except.error "down" :=
  ⟨c8_backend_failure_fallback.1 5 emptyManager (mkTurn "c1" "u1" "hi") "hi" "boom" rfl
     (by decide),
   c8_backend_failure_fallback.2.1 5 emptyManager (mkTurn "c1" "u1" "hi") "hi"
     { message := "all good", threadId := "t1" } rfl (by decide),
   c8_backend_failure_fallback.2.2 (some "c1")
     { createThread := Except.error "down", createMessage := Except.ok ()
       runResult := Except.ok "completed", runLastError := none
       latestMessageText := some "x" } "down" rfl⟩

/-! ### C7: required-field validation on the HTTP endpoints -/

/-- Counterexample for C7 as stated: a securityAlert request missing the
required `id` is rejected with HTTP 400 before any side effect, but the
JSON body is `{success: false, message: ...}` — it has no `error` key at
all, so the response is not of the form `{error: "..."}`. -/
theorem c7_counterexample :
    (securityAlertHandler mgrThree tNow 1200 alertReqNoId failSecond).1.status = 400 ∧
    (securityAlertHandler mgrThree tNow 1200 alertReqNoId failSecond).1.errorMsg = none ∧
    (securityAlertHandler mgrThree tNow 1200 alertReqNoId failSecond).1.message =
      some securityAlertMissingMsg ∧
    (securityAlertHandler mgrThree tNow 1200 alertReqNoId failSecond).1.success = some false ∧
    (securityAlertHandler mgrThree tNow 1200 alertReqNoId failSecond).2 = [] := by
  refine ⟨by decide, by decide, by decide, by decide, by decide⟩

/-- C7 as amended: a `/api/notification` request missing `prompt` gets
HTTP 400 with an `{error}` body naming the `prompt` field, and a
`/api/securityAlert` request missing `id`, `title` or `description` gets
HTTP 400 with a `{success: false, message}` body naming the required
fields; in both cases the rejection happens before any side effect
(no agent call and no dispatch is attempted). -/
theorem c7_amended_validation :
    (∀ (req : NotificationRequest) (agentResult : Except String String)
       (sendFails : ConversationReference → Bool),
      jsTruthy req.prompt = false →
      notificationHttpTrigger "POST" req agentResult sendFails =
        ({ status := 400, errorMsg := some missingPromptError, success := none
           message := none, recipientCount := none, alertId := none
           errorDetails := none }, [])) ∧
    (∀ (mgr : ManagerState) (now nowHM : Nat) (req : SecurityAlertRequest)
       (sendFails : ConversationReference → Bool),
      jsTruthy req.id = false ∨ jsTruthy req.title = false ∨
        jsTruthy req.description = false →
      securityAlertHandler mgr now nowHM req sendFails =
        ({ status := 400, errorMsg := none, success := some false
           message := some securityAlertMissingMsg, recipientCount := none
           alertId := none, errorDetails := none }, [])) := by
  constructor
  · intro req agentResult sendFails h
    simp [notificationHttpTrigger, h]
  · intro mgr now nowHM req sendFails h
    rcases h with h | h | h <;> simp [securityAlertHandler, h]

/-- Witness for C7 as amended: the concrete requests with the missing
fields are rejected with the described bodies and no side effects. -/
theorem c7_amended_validation_witness :
    notificationHttpTrigger "POST" notifReqNoPrompt (Except.ok "m") failSecond =
      ({ status := 400, errorMsg := some missingPromptError, success := none
         message := none, recipientCount := none, alertId := none
         errorDetails := none }, []) ∧
    securityAlertHandler mgrThree tNow 1200 alertReqNoId failSecond =
      ({ status := 400, errorMsg := none, success := some false
         message := some securityAlertMissingMsg, recipientCount := none
         alertId := none, errorDetails := none }, []) :=
  ⟨c7_amended_validation.1 notifReqNoPrompt (Except.ok "m") failSecond (by decide),
   c7_amended_validation.2 mgrThree tNow 1200 alertReqNoId failSecond (Or.inl (by decide))⟩

/-! ### C5: prompt enhancement -/

/-- Counterexample for C5 as stated: after the single message `"hello"`
the inferred topic is the default `"general security"`, yet
`enhancePromptWithContext` still appends the current-topic line — the
claim that the topic line appears only when the topic is known and not
general predicts the string without that line, which the code does not
return. -/
theorem c5_counterexample :
    (getConversationState mgrHello "c1").bind (fun st => st.context.currentTopic) =
      some "general security" ∧
    enhancePromptWithContext mgrHello "x" "c1" =
      "x\n\nContext: This conversation is focusing on general security.\n\nUser preference: Provide detailed responses." ∧
    enhancePromptWithContext mgrHello "x" "c1" ≠
      "x\n\nUser preference: Provide detailed responses." := by
  refine ⟨by decide, by decide, by decide⟩

/-- C5 as amended: `enhance` returns the input unchanged for an unknown
session or one without recorded queries; for a session with history it
appends the current-topic line whenever a (truthy) topic is stored —
including the default `"general security"` — the last-up-to-3-queries
line only when more than one query is stored, and the detail-level
directive whenever the stored preference is truthy; with history and a
stored detail level the result strictly extends the input as a prefix. -/
theorem c5_amended_enhance :
    (∀ (mgr : ManagerState) (prompt cid : String),
      lookupA mgr.conversationStates cid = none →
      enhancePromptWithContext mgr prompt cid = prompt) ∧
    (∀ (mgr : ManagerState) (prompt cid : String) (st : ConversationState),
      lookupA mgr.conversationStates cid = some st →
      st.context.previousQueries = [] →
      enhancePromptWithContext mgr prompt cid = prompt) ∧
    (∀ (mgr : ManagerState) (prompt cid : String) (st : ConversationState),
      lookupA mgr.conversationStates cid = some st →
      st.context.previousQueries ≠ [] →
      enhancePromptWithContext mgr prompt cid =
        prompt ++
          (match st.context.currentTopic with
           | some t => if strIsEmpty t then "" else topicContextLine t
           | none => "") ++
          (if st.context.previousQueries.length > 1 then
            recentTopicsLine st.context.previousQueries
          else "") ++
          (match st.context.userPreferences with
           | some up => if strIsEmpty up.detailLevel then "" else detailPrefLine up.detailLevel
           | none => "")) ∧
    (∀ (mgr : ManagerState) (prompt cid : String) (st : ConversationState) (up : UserPrefs),
      lookupA mgr.conversationStates cid = some st →
      st.context.previousQueries ≠ [] →
      st.context.userPreferences = some up →
      strIsEmpty up.detailLevel = false →
      ∃ suffix, enhancePromptWithContext mgr prompt cid = prompt ++ suffix ∧ suffix ≠ "") := by
  have hchar : ∀ (mgr : ManagerState) (prompt cid : String) (st : ConversationState),
      lookupA mgr.conversationStates cid = some st →
      st.context.previousQueries ≠ [] →
      enhancePromptWithContext mgr prompt cid =
        prompt ++
          (match st.context.currentTopic with
           | some t => if strIsEmpty t then "" else topicContextLine t
           | none => "") ++
          (if st.context.previousQueries.length > 1 then
            recentTopicsLine st.context.previousQueries
          else "") ++
          (match st.context.userPreferences with
           | some up => if strIsEmpty up.detailLevel then "" else detailPrefLine up.detailLevel
           | none => "") := by
    intro mgr prompt cid st h hne
    have hlen : ¬(st.context.previousQueries.length = 0) := by
      simpa [List.length_eq_zero] using hne
    simp only [enhancePromptWithContext, h, if_neg hlen]
  refine ⟨?_, ?_, hchar, ?_⟩
  · intro mgr prompt cid h
    simp [enhancePromptWithContext, h]
  · intro mgr prompt cid st h he
    simp [enhancePromptWithContext, h, he]
  · intro mgr prompt cid st up h hne hup hd
    have hc := hchar mgr prompt cid st h hne
    refine ⟨(match st.context.currentTopic with
             | some t => if strIsEmpty t then "" else topicContextLine t
             | none => "") ++
            ((if st.context.previousQueries.length > 1 then
              recentTopicsLine st.context.previousQueries
            else "") ++
             (match st.context.userPreferences with
              | some up2 =>
                if strIsEmpty up2.detailLevel then "" else detailPrefLine up2.detailLevel
              | none => "")), ?_, ?_⟩
    · rw [hc, String.append_assoc, String.append_assoc]
    · have hC : (match st.context.userPreferences with
                 | some up2 =>
                   if strIsEmpty up2.detailLevel then "" else detailPrefLine up2.detailLevel
                 | none => "") = detailPrefLine up.detailLevel := by
        rw [hup]
        simp [hd]
      intro heq
      rw [hC] at heq
      have hlen2 := congrArg String.length heq
      have h1 : ("\n\nUser preference: Provide " : String).length = 27 := rfl
      simp only [String.length_append, detailPrefLine] at hlen2
      rw [h1] at hlen2
      have h0 : ("" : String).length = 0 := rfl
      rw [h0] at hlen2
      omega

/-- Witness for C5 as amended: a fresh session leaves the prompt
unchanged; after two messages the result strictly extends the prompt. -/
theorem c5_amended_enhance_witness :
    enhancePromptWithContext emptyManager "ping" "c9" = "ping" ∧
    (∃ suffix,
      enhancePromptWithContext mgrTwo "ping" "c1" = "ping" ++ suffix ∧ suffix ≠ "") := by
  constructor
  · exact c5_amended_enhance.1 emptyManager "ping" "c9" (by decide)
  · exact c5_amended_enhance.2.2.2 mgrTwo "ping" "c1" stTwo
      { detailLevel := "detailed", responseFormat := "text" }
      (by decide) (by decide) (by decide) (by decide)

/-! ### C1: fanout attempts and the reported recipient count -/

theorem sendInstallLoop_spec (tu tc : Option (List String))
    (sendFails : ConversationReference → Bool) (refs : List ConversationReference) :
    (sendInstallLoop tu tc sendFails refs).2 =
      refs.filter (fun r => !(installSkip tu tc r)) ∧
    (sendInstallLoop tu tc sendFails refs).1 =
      ((refs.filter (fun r => !(installSkip tu tc r))).filter
        (fun r => !(sendFails r))).length := by
  induction refs with
  | nil => exact ⟨rfl, rfl⟩
  | cons r rest ih =>
    by_cases hs : installSkip tu tc r = true
    · simpa [sendInstallLoop, hs, List.filter_cons] using ih
    · rw [Bool.not_eq_true] at hs
      by_cases hf : sendFails r = true
      · simp [sendInstallLoop, hs, hf, List.filter_cons, ih.1, ih.2]
      · rw [Bool.not_eq_true] at hf
        simp [sendInstallLoop, hs, hf, List.filter_cons, ih.1, ih.2]

/-- Counterexample for C1 as stated: with three stored conversations, no
preference records and a dispatch oracle under which exactly the delivery
to `c2` rejects, all three dispatches are started and exactly two delivery
promises do not reject — yet the recipient count the securityAlert
endpoint returns is `3`, the active-conversation statistic, not the
claimed dispatch success count `2` (and `ProactiveNotifier.sendNotification`
itself returns no count at all — it only logs the attempted count). -/
theorem c1_counterexample :
    (sendNotification mgrThree 1200 "alert" "medium" none failSecond).attempted.length = 3 ∧
    (sendNotification mgrThree 1200 "alert" "medium" none failSecond).succeededCount = 2 ∧
    (sendNotification mgrThree 1200 "alert" "medium" none failSecond).loggedCount = 3 ∧
    (securityAlertHandler mgrThree tNow 1200 alertReqFull failSecond).1.recipientCount =
      some 3 ∧
    (3 : Nat) ≠ 2 := by
  refine ⟨by decide, by decide, by decide, by decide, by decide⟩

/-- C1 as amended: every fanout starts a dispatch for every recipient that
survives the filtering even when some dispatches throw — the attempted
list never depends on the failure oracle. The `/api/notification`
installation fanout does return the count of recipients whose dispatch did
not raise; `ProactiveNotifier.sendNotification` returns no such count, and
the securityAlert endpoint reports `getStatistics().activeConversations`
as `recipientCount`, independent of dispatch outcomes. -/
theorem c1_amended_fanout :
    (∀ (tu tc : Option (List String)) (sendFails : ConversationReference → Bool)
       (refs : List ConversationReference),
      (sendInstallLoop tu tc sendFails refs).2 =
        refs.filter (fun r => !(installSkip tu tc r)) ∧
      (sendInstallLoop tu tc sendFails refs).1 =
        ((refs.filter (fun r => !(installSkip tu tc r))).filter
          (fun r => !(sendFails r))).length) ∧
    (∀ (mgr : ManagerState) (nowHM : Nat) (t p : String) (tu : Option (List String))
       (f g : ConversationReference → Bool),
      (sendNotification mgr nowHM t p tu f).attempted =
        (getAllConversationReferences mgr).filter (fun r => fanoutSurvives mgr nowHM t p tu r) ∧
      (sendNotification mgr nowHM t p tu f).attempted =
        (sendNotification mgr nowHM t p tu g).attempted ∧
      (sendNotification mgr nowHM t p tu f).succeededCount =
        ((sendNotification mgr nowHM t p tu f).attempted.filter (fun r => !(f r))).length) ∧
    (∀ (mgr : ManagerState) (now nowHM : Nat) (req : SecurityAlertRequest)
       (f : ConversationReference → Bool),
      jsTruthy req.id = true → jsTruthy req.title = true → jsTruthy req.description = true →
      (securityAlertHandler mgr now nowHM req f).1.recipientCount =
        some (getStatistics now mgr).activeConversations) := by
  refine ⟨sendInstallLoop_spec, ?_, ?_⟩
  · intro mgr nowHM t p tu f g
    refine ⟨?_, ?_, rfl⟩
    · simp [sendNotification, fanoutLoop_eq_filter]
    · simp [sendNotification, fanoutLoop_eq_filter]
  · intro mgr now nowHM req f h1 h2 h3
    simp [securityAlertHandler, h1, h2, h3]

/-- Witness for C1 as amended: in the three-conversation scenario with one
rejecting delivery, the installation fanout returns 2 of 3, the proactive
fanout attempts all three regardless of the oracle, and the securityAlert
endpoint reports the active-conversation count. -/
theorem c1_amended_fanout_witness :
    (sendInstallLoop none none failSecond (getAllConversationReferences mgrThree)).1 = 2 ∧
    (sendInstallLoop none none failSecond (getAllConversationReferences mgrThree)).2 =
      getAllConversationReferences mgrThree ∧
    (sendNotification mgrThree 1200 "alert" "medium" none failSecond).attempted =
      (sendNotification mgrThree 1200 "alert" "medium" none (fun _ => false)).attempted ∧
    (securityAlertHandler mgrThree tNow 1200 alertReqFull failSecond).1.recipientCount =
      some (getStatistics tNow mgrThree).activeConversations := by
  have hinst := c1_amended_fanout.1 none none failSecond (getAllConversationReferences mgrThree)
  have hfan := c1_amended_fanout.2.1 mgrThree 1200 "alert" "medium" none failSecond
    (fun _ => false)
  have halert := c1_amended_fanout.2.2 mgrThree tNow 1200 alertReqFull failSecond
    (by decide) (by decide) (by decide)
  refine ⟨?_, ?_, hfan.2.1, halert⟩
  · rw [hinst.2]
    decide
  · rw [hinst.1]
    decide

/-! ### C6: age-based eviction -/

/-- C6: `evictOlderThan` removes exactly the sessions whose `lastActivity`
is strictly older than `now` minus `maxAgeHours`, returns the exact number
removed, leaves every other session unchanged, and a `get` on an evicted
conversation id afterwards returns absent. -/
theorem c6_evictOlderThan (now maxAgeHours : Nat) (mgr : ManagerState)
    (hnd : (keysOf mgr.conversationStates).Nodup) :
    (cleanupOldStates now maxAgeHours mgr).1 =
      (mgr.conversationStates.filter
        (fun p => decide (p.2.lastActivity < now - maxAgeHours * msPerHour))).length ∧
    (∀ (cid : String) (st : ConversationState),
      lookupA mgr.conversationStates cid = some st →
      st.lastActivity < now - maxAgeHours * msPerHour →
      getConversationState (cleanupOldStates now maxAgeHours mgr).2 cid = none) ∧
    (∀ (cid : String) (st : ConversationState),
      lookupA mgr.conversationStates cid = some st →
      ¬(st.lastActivity < now - maxAgeHours * msPerHour) →
      getConversationState (cleanupOldStates now maxAgeHours mgr).2 cid = some st) := by
  refine ⟨?_, ?_, ?_⟩
  · simp [cleanupOldStates, keysOf]
  · intro cid st h hlt
    simp only [getConversationState, cleanupOldStates]
    exact lookupA_filter_drop hnd h (by simp [hlt])
  · intro cid st h hnlt
    simp only [getConversationState, cleanupOldStates]
    exact lookupA_filter_keep h (by simp [hnlt])

/-- Witness for C6: one hour past the 24-hour window all three sessions
are evicted (count 3, subsequent `get` absent); with a far larger window
nothing qualifies and the stored session is returned unchanged. -/
theorem c6_evictOlderThan_witness :
    (cleanupOldStates (tNow + 25 * msPerHour) 24 mgrThree).1 = 3 ∧
    getConversationState (cleanupOldStates (tNow + 25 * msPerHour) 24 mgrThree).2 "c2" = none ∧
    getConversationState (cleanupOldStates (tNow + 25 * msPerHour) 2000 mgrThree).2 "c2" =
      some stC2 := by
  have h := c6_evictOlderThan (tNow + 25 * msPerHour) 24 mgrThree (by decide)
  have h2 := c6_evictOlderThan (tNow + 25 * msPerHour) 2000 mgrThree (by decide)
  refine ⟨?_, ?_, ?_⟩
  · rw [h.1]
    decide
  · exact h.2.1 "c2" stC2 (by decide) (by decide)
  · exact h2.2.2 "c2" stC2 (by decide) (by decide)

/-! ### Invariant machinery for the session and reference maps -/

theorem capQueries_length_le (l : List String) : (capQueries l).length ≤ 5 := by
  unfold capQueries sliceLast
  split
  · rw [List.length_drop]
    omega
  · omega

theorem keysOf_filter_by_key {α : Type} (l : List (String × α)) (Q : String → Bool) :
    keysOf (l.filter (fun p => Q p.1)) = (keysOf l).filter Q := by
  induction l with
  | nil => rfl
  | cons p rest ih =>
    obtain ⟨k, v⟩ := p
    cases hq : Q k with
    | true => simp [List.filter_cons, hq, keysOf_cons, ih]
    | false => simp [List.filter_cons, hq, keysOf_cons, ih]

theorem contains_eq_false_of_not_mem {l : List String} {a : String} (h : a ∉ l) :
    l.contains a = false := by
  rw [← Bool.not_eq_true]
  intro hc
  exact h (List.elem_iff.mp hc)

theorem keysOf_filter_not_evicted {α : Type} (l : List (String × α))
    (P : String × α → Bool) (hnd : (keysOf l).Nodup) :
    keysOf (l.filter (fun p => !(P p))) =
      (keysOf l).filter (fun k => !((keysOf (l.filter P)).contains k)) := by
  induction l with
  | nil => rfl
  | cons p rest ih =>
    obtain ⟨k, v⟩ := p
    rw [keysOf_cons, List.nodup_cons] at hnd
    obtain ⟨hnotin, hnd2⟩ := hnd
    cases hp : P (k, v) with
    | true =>
      rw [List.filter_cons_of_neg (by simp [hp]), List.filter_cons_of_pos (by simp [hp])]
      rw [keysOf_cons, keysOf_cons, List.filter_cons_of_neg (by simp)]
      rw [ih hnd2]
      refine List.filter_congr ?_
      intro x hx
      have hxk : ¬(x = k) := fun hh => hnotin (hh ▸ hx)
      have hbeq : (x == k) = false := beq_eq_false_iff_ne.mpr hxk
      have hcc : ((x == k) || (keysOf (List.filter P rest)).contains x) =
          (keysOf (List.filter P rest)).contains x := by
        rw [hbeq, Bool.false_or]
      exact congrArg (fun b => !b) hcc.symm
    | false =>
      rw [List.filter_cons_of_pos (by simp [hp]), List.filter_cons_of_neg (by simp [hp])]
      rw [keysOf_cons, keysOf_cons]
      have hknot : k ∉ keysOf (rest.filter P) :=
        fun hmem => hnotin ((keysOf_filter_sublist rest P).subset hmem)
      rw [List.filter_cons_of_pos (by
        show (!((keysOf (List.filter P rest)).contains k)) = true
        rw [contains_eq_false_of_not_mem hknot]
        rfl)]
      rw [ih hnd2]

theorem keysOf_filter_not_contains {α : Type} (l : List (String × α)) (E : List String) :
    keysOf (l.filter (fun p => !(E.contains p.1))) =
      (keysOf l).filter (fun k => !(E.contains k)) := by
  induction l with
  | nil => rfl
  | cons p rest ih =>
    obtain ⟨k, v⟩ := p
    cases hq : E.contains k with
    | true =>
      have hm : k ∈ E := List.elem_iff.mp hq
      have hL : List.filter (fun p => !(E.contains p.1)) ((k, v) :: rest) =
          List.filter (fun p => !(E.contains p.1)) rest :=
        List.filter_cons_of_neg (by simp [hm])
      have hR : List.filter (fun k2 => !(E.contains k2)) (k :: keysOf rest) =
          List.filter (fun k2 => !(E.contains k2)) (keysOf rest) :=
        List.filter_cons_of_neg (by simp [hm])
      rw [keysOf_cons, hL, hR, ih]
    | false =>
      have hm : k ∉ E := by
        intro hmem
        have hc : E.contains k = true := List.elem_iff.mpr hmem
        rw [hq] at hc
        exact Bool.false_ne_true hc
      have hL : List.filter (fun p => !(E.contains p.1)) ((k, v) :: rest) =
          (k, v) :: List.filter (fun p => !(E.contains p.1)) rest :=
        List.filter_cons_of_pos (by simp [hm])
      have hR : List.filter (fun k2 => !(E.contains k2)) (k :: keysOf rest) =
          k :: List.filter (fun k2 => !(E.contains k2)) (keysOf rest) :=
        List.filter_cons_of_pos (by simp [hm])
      rw [keysOf_cons, hL, hR, keysOf_cons, ih]

theorem update_stored_prev_le5 (now : Nat) (m : ManagerState) (ctx : TurnCtx)
    (tid : Option String)
    (h1 : ∀ p ∈ m.conversationStates, p.2.context.previousQueries.length ≤ 5) :
    ∀ p ∈ (updateConversationState now m ctx tid).conversationStates,
      p.2.context.previousQueries.length ≤ 5 := by
  intro p hp
  simp only [updateConversationState] at hp
  rcases mem_insertA hp with hpe | hpm
  · subst hpe
    simp only
    split
    · exact capQueries_length_le _
    · split
      · split
        · split
          · simp
          · rename_i st heq
            exact h1 _ (lookupA_mem heq)
        · split
          · simp
          · rename_i st heq
            exact h1 _ (lookupA_mem heq)
      · split
        · simp
        · rename_i st heq
          exact h1 _ (lookupA_mem heq)
  · exact h1 p hpm

theorem applyOp_invariant (m : ManagerState)
    (h1 : ∀ p ∈ m.conversationStates, p.2.context.previousQueries.length ≤ 5)
    (h2 : (keysOf m.conversationStates).Nodup)
    (h3 : keysOf m.conversationStates = keysOf m.conversationReferences)
    (op : MgrOp) :
    (∀ p ∈ (applyOp m op).conversationStates, p.2.context.previousQueries.length ≤ 5) ∧
    (keysOf (applyOp m op).conversationStates).Nodup ∧
    keysOf (applyOp m op).conversationStates =
      keysOf (applyOp m op).conversationReferences := by
  cases op with
  | update now ctx tid =>
    refine ⟨update_stored_prev_le5 now m ctx tid h1, ?_, ?_⟩
    · exact nodup_keysOf_insertA _ _ h2
    · simp only [applyOp, updateConversationState]
      rw [keysOf_insertA, keysOf_insertA, h3]
  | cleanup now maxAgeHours =>
    refine ⟨?_, ?_, ?_⟩
    · intro p hp
      simp only [applyOp, cleanupOldStates] at hp
      exact h1 p (List.mem_of_mem_filter hp)
    · exact (keysOf_filter_sublist _ _).nodup h2
    · simp only [applyOp, cleanupOldStates]
      rw [keysOf_filter_not_evicted _ _ h2, keysOf_filter_not_contains, h3]
  | setPrefs uid prefs =>
    exact ⟨h1, h2, h3⟩

theorem foldl_applyOp_invariant (ops : List MgrOp) :
    ∀ (m : ManagerState),
      (∀ p ∈ m.conversationStates, p.2.context.previousQueries.length ≤ 5) →
      (keysOf m.conversationStates).Nodup →
      keysOf m.conversationStates = keysOf m.conversationReferences →
      (∀ p ∈ (ops.foldl applyOp m).conversationStates,
        p.2.context.previousQueries.length ≤ 5) ∧
      (keysOf (ops.foldl applyOp m).conversationStates).Nodup ∧
      keysOf (ops.foldl applyOp m).conversationStates =
        keysOf (ops.foldl applyOp m).conversationReferences := by
  induction ops with
  | nil => intro m h1 h2 h3; exact ⟨h1, h2, h3⟩
  | cons op rest ih =>
    intro m h1 h2 h3
    obtain ⟨g1, g2, g3⟩ := applyOp_invariant m h1 h2 h3 op
    exact ih (applyOp m op) g1 g2 g3

theorem runOps_invariant (ops : List MgrOp) :
    (∀ p ∈ (runOps ops).conversationStates, p.2.context.previousQueries.length ≤ 5) ∧
    (keysOf (runOps ops).conversationStates).Nodup ∧
    keysOf (runOps ops).conversationStates = keysOf (runOps ops).conversationReferences :=
  foldl_applyOp_invariant ops emptyManager (by simp [emptyManager]) (by simp [emptyManager, keysOf])
    rfl

/-! ### C9: the session map and the reference map share their key set -/

/-- C9: in every reachable manager state the session-state map and the
conversation-reference map have the same key set (even the same key list):
`updateConversationState` inserts the conversation id into both maps and
`cleanupOldStates` deletes it from both, so every conversation enumerated
for fanout has a session and vice versa. -/
theorem c9_maps_share_keys (ops : List MgrOp) :
    keysOf (runOps ops).conversationStates = keysOf (runOps ops).conversationReferences :=
  (runOps_invariant ops).2.2

/-! ### C3: session counters and rolling history -/

theorem capQueries_singleton (a : String) : capQueries ([] ++ [a]) = [a] := rfl

theorem capQueries_drop_append (L : List String) (a : String) :
    capQueries (L.drop (L.length - 5) ++ [a]) = (L ++ [a]).drop ((L ++ [a]).length - 5) := by
  rcases Nat.lt_or_ge L.length 5 with h5 | h5
  · have h1 : L.length - 5 = 0 := by omega
    have h2 : (L ++ [a]).length - 5 = 0 := by
      rw [List.length_append]
      simp only [List.length_singleton]
      omega
    rw [h1, List.drop_zero, h2, List.drop_zero]
    unfold capQueries
    rw [if_neg (by
      rw [List.length_append]
      simp only [List.length_singleton]
      omega)]
  · have hlen : (L.drop (L.length - 5)).length = 5 := by
      rw [List.length_drop]
      omega
    have hgt : (L.drop (L.length - 5) ++ [a]).length > 5 := by
      rw [List.length_append, hlen]
      simp
    have amount1 : (L.drop (L.length - 5) ++ [a]).length - 5 = 1 := by
      rw [List.length_append, hlen]
      simp
    have amount2 : (L ++ [a]).length - 5 = L.length - 4 := by
      rw [List.length_append]
      simp only [List.length_singleton]
      omega
    have hstep1 : (L.drop (L.length - 5) ++ [a]).drop 1 = L.drop (L.length - 4) ++ [a] := by
      rw [List.drop_append_eq_append_drop, List.drop_drop, hlen]
      have e1 : L.length - 5 + 1 = L.length - 4 := by omega
      rw [e1]
      simp
    have hstep2 : (L ++ [a]).drop (L.length - 4) = L.drop (L.length - 4) ++ [a] := by
      rw [List.drop_append_eq_append_drop]
      have e2 : L.length - 4 - L.length = 0 := by omega
      rw [e2]
      simp
    unfold capQueries sliceLast
    rw [if_pos hgt, amount1, hstep1, amount2, hstep2]

theorem evolveQueries_drop (qs : List String) :
    ∀ (L : List String),
      evolveQueries (L.drop (L.length - 5)) qs = (L ++ qs).drop ((L ++ qs).length - 5) := by
  induction qs with
  | nil =>
    intro L
    simp [evolveQueries]
  | cons q rest ih =>
    intro L
    show evolveQueries (capQueries (L.drop (L.length - 5) ++ [q])) rest = _
    rw [capQueries_drop_append]
    rw [ih (L ++ [q])]
    rw [List.append_assoc]
    rfl

theorem lookupA_update_absent (now : Nat) (m : ManagerState) (ctx : TurnCtx) (s : String)
    (hlk : lookupA m.conversationStates ctx.conversationId = none)
    (ht : ctx.text = some s) (hs : strIsEmpty s = false) :
    lookupA (updateConversationState now m ctx none).conversationStates ctx.conversationId =
      some
        { conversationId := ctx.conversationId, threadId := none, userId := ctx.userId
          userName := some ctx.userName, lastActivity := now, messageCount := 1
          context :=
            { currentTopic := some (detectCurrentTopic (normalizeQuery s))
              securityLevel := some (detectSecurityLevel (normalizeQuery s))
              previousQueries := [normalizeQuery s]
              userPreferences :=
                some { detailLevel := "detailed", responseFormat := "text" } } } := by
  simp only [updateConversationState, hlk, ht, jsTruthy, hs, Bool.not_false, if_true,
    Option.getD_some]
  rw [lookupA_insertA_self, capQueries_singleton]

theorem lookupA_update_found (now : Nat) (m : ManagerState) (ctx : TurnCtx) (s : String)
    (st : ConversationState)
    (hlk : lookupA m.conversationStates ctx.conversationId = some st)
    (ht : ctx.text = some s) (hs : strIsEmpty s = false) :
    lookupA (updateConversationState now m ctx none).conversationStates ctx.conversationId =
      some
        { st with
          lastActivity := now
          messageCount := st.messageCount + 1
          context :=
            { st.context with
              previousQueries := capQueries (st.context.previousQueries ++ [normalizeQuery s])
              securityLevel := some (detectSecurityLevel (normalizeQuery s))
              currentTopic := some (detectCurrentTopic (normalizeQuery s)) } } := by
  simp only [updateConversationState, hlk, ht, jsTruthy, hs, Bool.not_false, if_true,
    Option.getD_some]
  rw [lookupA_insertA_self]

theorem foldl_updates (cid uid uname chan : String) (msgs : List (Nat × String)) :
    ∀ (m : ManagerState) (st : ConversationState),
      lookupA m.conversationStates cid = some st →
      (∀ p ∈ msgs, strIsEmpty p.2 = false) →
      ∃ st',
        lookupA ((updatesFor cid uid uname chan msgs).foldl applyOp m).conversationStates cid =
          some st' ∧
        st'.messageCount = st.messageCount + msgs.length ∧
        st'.context.previousQueries =
          evolveQueries st.context.previousQueries
            (msgs.map (fun p => normalizeQuery p.2)) := by
  induction msgs with
  | nil =>
    intro m st h hall
    exact ⟨st, h, by simp, by simp [evolveQueries]⟩
  | cons p rest ih =>
    intro m st h hall
    obtain ⟨n, q⟩ := p
    have hq : strIsEmpty q = false := hall (n, q) (by simp)
    have hstep := lookupA_update_found n m
      { conversationId := cid, userId := uid, userName := uname, channelId := chan
        text := some q } q st h rfl hq
    obtain ⟨st', h1, h2, h3⟩ := ih _ _ hstep (fun p2 hp2 => hall p2 (by simp [hp2]))
    refine ⟨st', h1, ?_, ?_⟩
    · rw [h2]
      simp only [List.length_cons]
      omega
    · rw [h3]
      rfl

/-- C3: starting from a conversation with no session, N `update` calls each
carrying a message text leave `messageCount = N` and `recentQueries` equal
to the last `min(N, 5)` normalized texts in order (oldest evicted first);
moreover in every reachable manager state every session keeps
`recentQueries` at length at most 5 and there is one session per
conversation id (the key list of the session map has no duplicates). -/
theorem c3_session_counters :
    (∀ (m0 : ManagerState) (cid uid uname chan : String) (msgs : List (Nat × String)),
      lookupA m0.conversationStates cid = none →
      msgs ≠ [] →
      (∀ p ∈ msgs, strIsEmpty p.2 = false) →
      ∃ st,
        lookupA ((updatesFor cid uid uname chan msgs).foldl applyOp m0).conversationStates cid =
          some st ∧
        st.messageCount = msgs.length ∧
        st.context.previousQueries =
          (msgs.map (fun p => normalizeQuery p.2)).drop (msgs.length - 5) ∧
        st.context.previousQueries.length = min msgs.length 5) ∧
    (∀ ops : List MgrOp, ∀ p ∈ (runOps ops).conversationStates,
      p.2.context.previousQueries.length ≤ 5) ∧
    (∀ ops : List MgrOp, (keysOf (runOps ops).conversationStates).Nodup) := by
  refine ⟨?_, fun ops => (runOps_invariant ops).1, fun ops => (runOps_invariant ops).2.1⟩
  intro m0 cid uid uname chan msgs habs hne hall
  obtain ⟨⟨n0, q0⟩, rest, rfl⟩ : ∃ p rest, msgs = p :: rest := by
    cases msgs with
    | nil => exact absurd rfl hne
    | cons a b => exact ⟨a, b, rfl⟩
  have hq0 : strIsEmpty q0 = false := hall (n0, q0) (by simp)
  have hcreate := lookupA_update_absent n0 m0
    { conversationId := cid, userId := uid, userName := uname, channelId := chan
      text := some q0 } q0 habs rfl hq0
  obtain ⟨st', h1, h2, h3⟩ := foldl_updates cid uid uname chan rest _ _ hcreate
    (fun p2 hp2 => hall p2 (by simp [hp2]))
  have hdrop : evolveQueries [normalizeQuery q0] (rest.map (fun p => normalizeQuery p.2)) =
      ([normalizeQuery q0] ++ rest.map (fun p => normalizeQuery p.2)).drop
        (([normalizeQuery q0] ++ rest.map (fun p => normalizeQuery p.2)).length - 5) := by
    have h := evolveQueries_drop (rest.map (fun p => normalizeQuery p.2)) [normalizeQuery q0]
    simpa using h
  have h2a : st'.messageCount = 1 + rest.length := h2
  have h3a : st'.context.previousQueries =
      evolveQueries [normalizeQuery q0] (rest.map (fun p => normalizeQuery p.2)) := h3
  refine ⟨st', h1, ?_, ?_, ?_⟩
  · rw [h2a]
    simp only [List.length_cons]
    omega
  · rw [h3a, hdrop]
    congr 1
    simp only [List.length_append, List.length_cons, List.length_map, List.length_singleton,
      List.length_nil]
    omega
  · rw [h3a, hdrop, List.length_drop]
    simp only [List.length_append, List.length_cons, List.length_map, List.length_singleton,
      List.length_nil]
    omega

/-- Witness for C3: two updates with texts `"a"` then `"b"` on a fresh
conversation leave a session with `messageCount = 2` and exactly those two
normalized queries in order. -/
theorem c3_session_counters_witness :
    ∃ st,
      lookupA ((updatesFor "c1" "u1" "User" "msteams" [(1, "a"), (2, "b")]).foldl applyOp
          emptyManager).conversationStates "c1" = some st ∧
      st.messageCount = 2 ∧
      st.context.previousQueries = ["a", "b"] ∧
      st.context.previousQueries.length = min 2 5 := by
  obtain ⟨st, h1, h2, h3, h4⟩ := c3_session_counters.1 emptyManager "c1" "u1" "User" "msteams"
    [(1, "a"), (2, "b")] (by decide) (by decide) (by decide)
  refine ⟨st, h1, h2, ?_, h4⟩
  rw [h3]
  decide
